import Mathlib
/-
Verification of the scene batch collection core
(Source/Urho3D/Graphics/SceneBatchCollector.cpp).

The C++ code is shallowly embedded: pointers become optional identifiers,
unordered maps become association lists, per-thread mutable state becomes
explicit state passing, and floating-point quantities that are only
compared (distances, LOD thresholds, light scores) are embedded as
integers carrying the order structure. Results of external floating-point
geometry (bounding-box containment tests, view-space range evaluation,
color blackness tests) are oracles carried in the input data.
-/
set_option maxRecDepth 4096

/-- Trait bit marking a drawable as updated this frame
(TransientDrawableIndex::DrawableUpdated; the header is outside the provided
sources, so the bit values are representative, only bitset semantics matter). -/
def DrawableUpdated : Nat := 1

/-- Trait bit marking a drawable as classified visible geometry
(TransientDrawableIndex::DrawableVisibleGeometry). -/
def DrawableVisibleGeometry : Nat := 2

/-- Trait bit marking a drawable as forward lit (TransientDrawableIndex::ForwardLit). -/
def ForwardLit : Nat := 4

/-- M_MAX_UNSIGNED, the sentinel for an absent pass index. -/
def MAX_U : Nat := 4294967295

/-- M_LARGE_VALUE (100000000.0f), embedded on the integer order. -/
def M_LARGE_VALUE : Int := 100000000

namespace Collect

/-- A shader technique: whether the device supports it (Technique::IsSupported)
and its passes as an association from pass index to pass object identifier
(Technique::GetPass). -/
structure Technique where
  supported : Bool
  passes : List (Nat × Nat)
deriving DecidableEq

/-- Technique::GetPass: the pass object registered under the given pass index,
none when the technique has no such pass. -/
def Technique.getPass (t : Technique) (i : Nat) : Option Nat :=
  (t.passes.find? (fun p => p.1 == i)).map Prod.snd

/-- One TechniqueEntry of a material: the technique pointer (none models null),
the required quality level and the LOD distance threshold. -/
structure TechniqueEntry where
  technique : Option Technique
  qualityLevel : Int
  lodDistance : Int
deriving DecidableEq

/-- A material: its declared technique entries (Material::GetTechniques). -/
structure Material where
  techniques : List TechniqueEntry
deriving DecidableEq

/-- The scan loop of SceneBatchCollector::FindTechnique: walk entries in
declared order, skip null, unsupported or too-high-quality entries, return
the first whose LOD threshold is at or below the LOD distance. -/
def scanTechniques (materialQuality lodDistance : Int) :
    List TechniqueEntry → Option Technique
  | [] => none
  | e :: rest =>
    match e.technique with
    | none => scanTechniques materialQuality lodDistance rest
    | some tech =>
      if !tech.supported || decide (materialQuality < e.qualityLevel) then
        scanTechniques materialQuality lodDistance rest
      else if decide (e.lodDistance ≤ lodDistance) then
        some tech
      else
        scanTechniques materialQuality lodDistance rest

/-- SceneBatchCollector::FindTechnique: single-technique short circuit, then
the scan, then fallback to the last entry, nullptr on an empty list. -/
def findTechnique (materialQuality lodDistance : Int)
    (techniques : List TechniqueEntry) : Option Technique :=
  match techniques with
  | [e] => e.technique
  | _ =>
    match scanTechniques materialQuality lodDistance techniques with
    | some t => some t
    | none => techniques.getLast?.bind (fun e => e.technique)

/-- Spec-side qualification predicate, following section 4.1 of the spec:
an entry qualifies when its technique is present, supported, its required
quality level does not exceed the active material quality, and its
LOD-distance threshold is at or below the LOD distance. -/
def qualifies (materialQuality lodDistance : Int) (e : TechniqueEntry) : Bool :=
  match e.technique with
  | none => false
  | some tech =>
    tech.supported && decide (e.qualityLevel ≤ materialQuality)
      && decide (e.lodDistance ≤ lodDistance)

end Collect

namespace PS

/-- SubPassPipelineStateKey: drawable pipeline-state hash plus geometry,
material and pass object identifiers. -/
structure Key where
  drawableHash : Nat
  geometry : Nat
  material : Nat
  pass : Nat
deriving DecidableEq

/-- SubPassPipelineStateEntry: the geometry, material and pass hashes captured
in the entry, the pipeline state (none models a null SharedPtr) and the
invalidation flag. -/
structure Entry where
  geometryHash : Nat
  materialHash : Nat
  passHash : Nat
  pipelineState : Option Nat
  invalidated : Bool
deriving DecidableEq

/-- The value-initialized entry produced by unordered_map bracket access. -/
def defaultEntry : Entry := ⟨0, 0, 0, none, false⟩

/-- The live pipeline-state hashes of geometry, material and pass objects
(their GetPipelineStateHash accessors). -/
structure HashEnv where
  geometryHash : Nat → Nat
  materialHash : Nat → Nat
  passHash : Nat → Nat

/-- The cache map of SubPassPipelineStateCache, as an association list. -/
abbrev Cache := List (Key × Entry)

/-- cache_.find. -/
def find : Cache → Key → Option Entry
  | [], _ => none
  | (k', e') :: rest, k => if k' = k then some e' else find rest k

/-- Store an entry under a key, replacing any previous binding. -/
def set : Cache → Key → Entry → Cache
  | [], k, e => [(k, e)]
  | (k', e') :: rest, k, e =>
    if k' = k then (k, e) :: rest else (k', e') :: set rest k e

/-- SubPassPipelineStateCache::GetPipelineState: miss on an absent or
invalidated entry; on a live-hash mismatch flag the entry invalidated and
miss; otherwise return the cached state. Returns the result and the cache
after the side effect on the flag. -/
def getPipelineState (env : HashEnv) (c : Cache) (k : Key) :
    Option Nat × Cache :=
  match find c k with
  | none => (none, c)
  | some e =>
    if e.invalidated then (none, c)
    else if env.geometryHash k.geometry ≠ e.geometryHash
        ∨ env.materialHash k.material ≠ e.materialHash
        ∨ env.passHash k.pass ≠ e.passHash then
      (none, set c k { e with invalidated := true })
    else (e.pipelineState, c)

/-- SubPassPipelineStateCache::GetOrCreatePipelineState: fetch or
default-insert the entry; when the state is null, the entry is invalidated
or any live hash mismatches, invoke the factory and store the new state,
clearing the flag. Pipeline states are identified by a creation counter so
that distinct factory invocations yield distinct states; the source stores
only the state and the flag here, the captured entry hashes are never
assigned anywhere in the translation unit. Returns the state, the cache and
the new counter. -/
def getOrCreatePipelineState (env : HashEnv) (c : Cache) (k : Key)
    (counter : Nat) : Nat × Cache × Nat :=
  let e := (find c k).getD defaultEntry
  if e.pipelineState = none ∨ e.invalidated = true
      ∨ env.geometryHash k.geometry ≠ e.geometryHash
      ∨ env.materialHash k.material ≠ e.materialHash
      ∨ env.passHash k.pass ≠ e.passHash then
    (counter, set c k { e with pipelineState := some counter,
                               invalidated := false }, counter + 1)
  else
    (e.pipelineState.getD 0, c, counter)

/-- A SourceBatch as read by the batch assembler: geometry object and
material pointer (none models null). -/
structure SrcBatch where
  geometry : Nat
  material : Option Nat
deriving DecidableEq

/-- The drawable-side environment of CollectSceneBaseBatches: the drawable
pipeline-state hash, the drawable batch list (Drawable::GetBatches) and the
renderer default material. Drawable pointers are modelled by their index. -/
structure DrawEnv where
  drawableHash : Nat → Nat
  drawableBatches : Nat → List SrcBatch
  defaultMaterial : Nat

/-- An IntermediateSceneBatch as consumed by CollectSceneBaseBatches:
the geometry drawable, the source batch index and the base pass. -/
structure IB where
  geometry : Nat
  sourceBatchIndex : Nat
  basePass : Nat
deriving DecidableEq

/-- A finalized SceneBatch. -/
structure SceneBatch where
  drawable : Nat
  drawableIndex : Nat
  sourceBatchIndex : Nat
  geometry : Nat
  material : Nat
  pass : Nat
  pipelineState : Option Nat
deriving DecidableEq

/-- SubPassPipelineStateKey construction from a scene batch. -/
def keyOf (denv : DrawEnv) (b : SceneBatch) : Key :=
  ⟨denv.drawableHash b.drawable, b.geometry, b.material, b.pass⟩

/-- The scene-batch slot filled by phase 1 of CollectSceneBaseBatches, before
the pipeline-state lookup. -/
def buildSceneBatch (denv : DrawEnv) (ib : IB) : SceneBatch :=
  let sb := ((denv.drawableBatches ib.geometry).get? ib.sourceBatchIndex).getD
    ⟨0, none⟩
  { drawable := ib.geometry
    drawableIndex := ib.geometry
    sourceBatchIndex := ib.sourceBatchIndex
    geometry := sb.geometry
    material := sb.material.getD denv.defaultMaterial
    pass := ib.basePass
    pipelineState := none }

/-- Phase 1 of CollectSceneBaseBatches: fill every scene batch in input
order, attempt a cache lookup for each, and record which batches missed
(the miss queue of sceneBatchesWithoutPipelineStates_). -/
def collectPhase1 (env : HashEnv) (denv : DrawEnv) :
    Cache → List IB → List (SceneBatch × Bool) × Cache
  | c, [] => ([], c)
  | c, ib :: rest =>
    let b := buildSceneBatch denv ib
    let r := getPipelineState env c (keyOf denv b)
    let b1 := { b with pipelineState := r.1 }
    let rec_ := collectPhase1 env denv r.2 rest
    ((b1, r.1.isNone) :: rec_.1, rec_.2)

/-- Phase 2 of CollectSceneBaseBatches: for every queued miss, in order, call
GetOrCreatePipelineState and fill in the state. -/
def collectPhase2 (env : HashEnv) (denv : DrawEnv) :
    Cache → Nat → List (SceneBatch × Bool) → List SceneBatch × Cache × Nat
  | c, counter, [] => ([], c, counter)
  | c, counter, (b, miss) :: rest =>
    if miss then
      let r := getOrCreatePipelineState env c (keyOf denv b) counter
      let tail := collectPhase2 env denv r.2.1 r.2.2 rest
      ({ b with pipelineState := some r.1 } :: tail.1, tail.2)
    else
      let tail := collectPhase2 env denv c counter rest
      (b :: tail.1, tail.2)

/-- SceneBatchCollector::CollectSceneBaseBatches for one pass and one
lit/unlit subset: phase 1 lookups then phase 2 fills, returning the final
scene batch list, the cache and the creation counter. -/
def collectSceneBaseBatches (env : HashEnv) (denv : DrawEnv) (c : Cache)
    (counter : Nat) (ibs : List IB) : List SceneBatch × Cache × Nat :=
  let p1 := collectPhase1 env denv c ibs
  collectPhase2 env denv p1.2 counter p1.1

end PS

/-- Hash environment for the C8 scenario: the live geometry hash of geometry
object 7 is 1, every other live hash is 0. -/
def c8env : PS.HashEnv := ⟨fun g => if g = 7 then 1 else 0, fun _ => 0, fun _ => 0⟩

/-- Drawable environment for the C8 scenario: one drawable with hash 5 and a
single source batch over geometry 7 and material 3. -/
def c8denv : PS.DrawEnv := ⟨fun _ => 5, fun _ => [⟨7, some 3⟩], 9⟩

/-- The single intermediate batch of the C8 scenario. -/
def c8ibs : List PS.IB := [⟨0, 0, 4⟩]

/-- Light types (LIGHT_DIRECTIONAL, LIGHT_SPOT, LIGHT_POINT). -/
inductive LightType
| directional
| spot
| point
deriving DecidableEq

namespace Lights

/-- A visible light as seen by the main-light scan of ProcessVisibleLights:
its identity, its type and its importance score (Light::GetIntensityDivisor,
an external floating-point heuristic embedded on the integer order). -/
structure VisibleLight where
  id : Nat
  lightType : LightType
  intensityDivisor : Int
deriving DecidableEq

/-- The main-light scan loop of SceneBatchCollector::ProcessVisibleLights,
threading the running best score and best light. -/
def findMainLightAux : Int → Option VisibleLight → List VisibleLight →
    Option VisibleLight
  | _, best, [] => best
  | score, best, l :: rest =>
    if l.lightType ≠ LightType.directional then
      findMainLightAux score best rest
    else if l.intensityDivisor > score then
      findMainLightAux l.intensityDivisor (some l) rest
    else
      findMainLightAux score best rest

/-- Main-light selection: the scan started from score 0 and a null light. -/
def findMainLight (lights : List VisibleLight) : Option VisibleLight :=
  findMainLightAux 0 none lights

/-- The running maximum the scan computes: the fold of the directional
strict-maximum step over the list from a given initial score. -/
def dirRunMax : Int → List VisibleLight → Int
  | s, [] => s
  | s, l :: rest =>
    if l.lightType = LightType.directional ∧ l.intensityDivisor > s then
      dirRunMax l.intensityDivisor rest
    else
      dirRunMax s rest

/-- The maximum directional score reached from the initial score 0. -/
def dirScoreMax (lights : List VisibleLight) : Int := dirRunMax 0 lights

/-- Spec-side tie predicate: a directional light whose score equals a given
maximum. -/
def tiedAt (m : Int) (l : VisibleLight) : Bool :=
  decide (l.lightType = LightType.directional ∧ l.intensityDivisor = m)

end Lights

namespace LitGeom

/-- A drawable as seen by lit-geometry collection: its dense index and its
light mask (Drawable::GetLightMask). -/
structure LitDrawable where
  drawableIndex : Nat
  lightMask : Nat
deriving DecidableEq

/-- A light as seen by CollectLitGeometries: type, raw light mask
(Light::GetLightMask) and effective light mask (Light::GetLightMaskEffective). -/
structure LightSource where
  lightType : LightType
  lightMask : Nat
  lightMaskEffective : Nat

/-- The collector-side inputs of CollectLitGeometries: the transient trait
table, the visible-geometry list, the geometry drawables the octree feeds to
TestDrawables together with the per-node inside flag, and the containment
oracles (Sphere::IsInsideFast and Frustum::IsInsideFast on the world bounding
box, external floating-point geometry). -/
structure LitScene where
  traits : Nat → Nat
  visibleGeometries : List LitDrawable
  octreeCandidates : List (LitDrawable × Bool)
  sphereInside : LitDrawable → Bool
  frustumInside : LitDrawable → Bool

/-- The TestDrawables body shared by PointLightLitGeometriesQuery and
SpotLightLitGeometriesQuery: keep candidates with the visible-geometry trait
whose light mask intersects the query mask and which pass the containment
test unless the node is fully inside; the containment oracle is the sphere
test for the point query and the frustum test for the spot query. -/
def testDrawables (traits : Nat → Nat) (lightMask : Nat)
    (contains : LitDrawable → Bool) (result : List LitDrawable) :
    List (LitDrawable × Bool) → List LitDrawable
  | [] => result
  | (d, inside) :: rest =>
    if traits d.drawableIndex &&& DrawableVisibleGeometry ≠ 0 then
      if d.lightMask &&& lightMask ≠ 0 then
        if inside || contains d then
          testDrawables traits lightMask contains (result ++ [d]) rest
        else testDrawables traits lightMask contains result rest
      else testDrawables traits lightMask contains result rest
    else testDrawables traits lightMask contains result rest

/-- SceneBatchCollector::CollectLitGeometries: spot lights run the frustum
query, point lights the sphere query, both over the octree with the light
effective mask; directional lights walk the visible-geometry list with the
raw light mask and no octree query. The lit-geometry list was cleared before
this call. -/
def collectLitGeometries (scene : LitScene) (light : LightSource) :
    List LitDrawable :=
  match light.lightType with
  | LightType.spot =>
    testDrawables scene.traits light.lightMaskEffective scene.frustumInside
      [] scene.octreeCandidates
  | LightType.point =>
    testDrawables scene.traits light.lightMaskEffective scene.sphereInside
      [] scene.octreeCandidates
  | LightType.directional =>
    scene.visibleGeometries.foldl
      (fun res d => if d.lightMask &&& light.lightMask ≠ 0
        then res ++ [d] else res) []

/-- The acceptance predicate of one TestDrawables candidate. -/
def accepts (traits : Nat → Nat) (lightMask : Nat)
    (contains : LitDrawable → Bool) (p : LitDrawable × Bool) : Bool :=
  decide (traits p.1.drawableIndex &&& DrawableVisibleGeometry ≠ 0)
    && decide (p.1.lightMask &&& lightMask ≠ 0)
    && (p.2 || contains p.1)

end LitGeom

namespace Collect

/-- ScenePassType. -/
inductive ScenePassType
| Unlit
| ForwardLitBase
| ForwardUnlitBase
deriving DecidableEq

/-- IntermediateSceneBatch: drawable pointer (none models null, drawables
are identified by index), source batch index, base pass and additional pass
pointers. -/
structure IntermediateSceneBatch where
  geometry : Option Nat
  sourceBatchIndex : Nat
  basePass : Option Nat
  additionalPass : Option Nat
deriving DecidableEq

/-- SceneBatchCollector::PassData: the pass type, the three resolved
sub-pass indices (Technique::GetPassIndex is outside the provided sources,
so a sub-pass name is modelled by the index it resolves to, M_MAX_UNSIGNED
when absent) and the two intermediate batch lists. The final scene batch
lists and pipeline-state caches are verified separately. -/
structure PassData where
  passType : ScenePassType
  unlitBaseIndex : Nat
  litBaseIndex : Nat
  additionalIndex : Nat
  unlitBatches : List IntermediateSceneBatch
  litBatches : List IntermediateSceneBatch
deriving DecidableEq

/-- PassData::CheckSubPasses. -/
def checkSubPasses (p : PassData) (hasBase hasFirstLight hasAdditionalLight : Bool) :
    Bool :=
  ((p.unlitBaseIndex != MAX_U) == hasBase)
    && ((p.litBaseIndex != MAX_U) == hasFirstLight)
    && ((p.additionalIndex != MAX_U) == hasAdditionalLight)

/-- PassData::IsValid. -/
def PassData.isValid (p : PassData) : Bool :=
  match p.passType with
  | ScenePassType.Unlit => checkSubPasses p true false false
  | ScenePassType.ForwardLitBase =>
    checkSubPasses p false true true || checkSubPasses p true true true
  | ScenePassType.ForwardUnlitBase => checkSubPasses p true false true

/-- Spec-side validity rule, following section 4.2 of the spec: Unlit passes
must have only the base sub-pass; ForwardUnlitBase passes must have base and
additional-light but not lit-base; ForwardLitBase passes must have
additional-light and either lit-base only or both base and lit-base. -/
def specPassValid (t : ScenePassType)
    (hasBase hasLit hasAddl : Bool) : Bool :=
  match t with
  | ScenePassType.Unlit => hasBase && !hasLit && !hasAddl
  | ScenePassType.ForwardUnlitBase => hasBase && hasAddl && !hasLit
  | ScenePassType.ForwardLitBase =>
    hasAddl && ((hasLit && !hasBase) || (hasBase && hasLit))

/-- PassData::CreateIntermediateSceneBatch. -/
def createIntermediateSceneBatch (p : PassData) (geometry : Nat)
    (sourceBatchIndex : Nat)
    (unlitBasePass litBasePass additionalLightPass : Option Nat) :
    IntermediateSceneBatch :=
  if p.passType = ScenePassType.Unlit ∨ additionalLightPass = none then
    ⟨some geometry, sourceBatchIndex, unlitBasePass, none⟩
  else if p.passType = ScenePassType.ForwardUnlitBase
      ∧ unlitBasePass.isSome ∧ additionalLightPass.isSome then
    ⟨some geometry, sourceBatchIndex, unlitBasePass, additionalLightPass⟩
  else if p.passType = ScenePassType.ForwardLitBase
      ∧ litBasePass.isSome ∧ additionalLightPass.isSome then
    ⟨some geometry, sourceBatchIndex, litBasePass, additionalLightPass⟩
  else ⟨none, 0, none, none⟩

/-- Bitwise or of a trait bit into one slot of the trait table
(transient_.traits_[index] |= bit). -/
def setBits (traits : Nat → Nat) (index : Nat) (bit : Nat) : Nat → Nat :=
  fun j => if j = index then traits j ||| bit else traits j

/-- A SourceBatch of a drawable: geometry object and material pointer. -/
structure SourceBatch where
  geometry : Nat
  material : Option Material
deriving DecidableEq

/-- A drawable as processed by UpdateAndCollectSourceBatchesForThread. The
batch list is the list Drawable::GetBatches returns after UpdateBatches; the
view-space range evaluation and the effective-color blackness test are
floating-point oracles carried per drawable. -/
structure Drawable where
  drawableIndex : Nat
  isGeometry : Bool
  isLight : Bool
  drawDistance : Int
  distance : Int
  lodDistance : Int
  batches : List SourceBatch
  zRangeEval : Option (Int × Int)
  lightColorBlack : Bool
  lightMaskEffective : Nat
deriving DecidableEq

/-- The per-frame collector state touched by source-batch collection: the
transient trait and z-range tables, the accumulated scene z-range, the
visible geometry and light lists, and the pass array. The per-drawable
light accumulator reset is elided (no claim reads it). -/
structure CollectState where
  traits : Nat → Nat
  zRange : Nat → Int × Int
  sceneZRange : List (Int × Int)
  visibleGeometries : List Drawable
  visibleLights : List Drawable
  passes : List PassData

/-- The inner pass loop filling one source batch into every configured pass:
fetch the three sub-pass pointers from the technique, build the intermediate
batch, and insert it into the lit list (marking the drawable forward lit)
when it has an additional pass, else into the unlit list when it has a base
pass. -/
def fillPassesForBatch (d : Drawable) (i : Nat) (tech : Technique)
    (st : CollectState) : CollectState :=
  let idx := d.drawableIndex
  let folded := st.passes.foldl
    (fun (acc : (Nat → Nat) × List PassData) (p : PassData) =>
      let unlitBasePass := tech.getPass p.unlitBaseIndex
      let litBasePass := tech.getPass p.litBaseIndex
      let additionalLightPass := tech.getPass p.additionalIndex
      let b := createIntermediateSceneBatch p idx i
        unlitBasePass litBasePass additionalLightPass
      if b.additionalPass.isSome then
        (setBits acc.1 idx ForwardLit,
          acc.2 ++ [{ p with litBatches := p.litBatches ++ [b] }])
      else if b.basePass.isSome then
        (acc.1, acc.2 ++ [{ p with unlitBatches := p.unlitBatches ++ [b] }])
      else (acc.1, acc.2 ++ [p]))
    (st.traits, [])
  { st with traits := folded.1, passes := folded.2 }

/-- The geometry branch of UpdateAndCollectSourceBatchesForThread: store the
view-space z range (the sentinel maximal range for invalid evaluations,
otherwise accumulating the scene range), classify the drawable as visible
geometry, then resolve material and technique per source batch and fill
every pass. -/
def processGeometry (materialQuality : Int) (defaultMaterial : Material)
    (st : CollectState) (d : Drawable) : CollectState :=
  let idx := d.drawableIndex
  let st1 :=
    match d.zRangeEval with
    | none =>
      { st with zRange := fun j => if j = idx
          then (M_LARGE_VALUE, M_LARGE_VALUE) else st.zRange j }
    | some r =>
      { st with zRange := fun j => if j = idx then r else st.zRange j,
                sceneZRange := st.sceneZRange ++ [r] }
  let st2 := { st1 with
    visibleGeometries := st1.visibleGeometries ++ [d],
    traits := setBits st1.traits idx DrawableVisibleGeometry }
  d.batches.enum.foldl
    (fun st (pair : Nat × SourceBatch) =>
      let material := pair.2.material.getD defaultMaterial
      match findTechnique materialQuality d.lodDistance material.techniques with
      | none => st
      | some tech => fillPassesForBatch d pair.1 tech st)
    st2

/-- SceneBatchCollector::UpdateAndCollectSourceBatchesForThread over one
thread range: update and mark each drawable; when a positive draw distance
is exceeded by the camera distance the source executes a return statement,
which abandons the remaining drawables of the range (not a continue);
otherwise classify geometry or register a visible light and go on. -/
def updateAndCollectForThread (materialQuality : Int)
    (defaultMaterial : Material) :
    CollectState → List Drawable → CollectState
  | st, [] => st
  | st, d :: rest =>
    let st1 := { st with
      traits := setBits st.traits d.drawableIndex DrawableUpdated }
    if d.drawDistance > 0 ∧ d.distance > d.drawDistance then
      st1
    else
      let st2 :=
        if d.isGeometry then
          processGeometry materialQuality defaultMaterial st1 d
        else if d.isLight then
          if ¬ d.lightColorBlack ∧ d.lightMaskEffective ≠ 0 then
            { st1 with visibleLights := st1.visibleLights ++ [d] }
          else st1
        else st1
      updateAndCollectForThread materialQuality defaultMaterial st2 rest

/-- A ScenePassDescription, with sub-pass names modelled by their resolved
indices. -/
structure ScenePassDesc where
  passType : ScenePassType
  unlitBaseIndex : Nat
  litBaseIndex : Nat
  additionalIndex : Nat
deriving DecidableEq

/-- A freshly resized PassData slot (value initialization). -/
def defaultPassData : PassData :=
  ⟨ScenePassType.Unlit, 0, 0, 0, [], []⟩

/-- One iteration of the InitializePasses setup loop: copy the description
and indices; when the pass is valid clear its batch lists; when it is not,
the source asserts and continues, skipping only the clear. -/
def initOne (prev : PassData) (d : ScenePassDesc) : PassData :=
  let pd : PassData := { prev with
    passType := d.passType,
    unlitBaseIndex := d.unlitBaseIndex,
    litBaseIndex := d.litBaseIndex,
    additionalIndex := d.additionalIndex }
  if pd.isValid then { pd with unlitBatches := [], litBatches := [] }
  else pd

/-- The InitializePasses setup loop over the resized pass array: existing
slots keep their previous contents, new slots are value initialized. -/
def initPassesGo : List PassData → List ScenePassDesc → List PassData
  | _, [] => []
  | [], d :: ds => initOne defaultPassData d :: initPassesGo [] ds
  | p :: ps, d :: ds => initOne p d :: initPassesGo ps ds

/-- baseBatchesLookup_ entries: pass index mapped to the position of the
owning pass in the pass array and whether it is the lit list. -/
def lookupAssoc : List (Nat × (Nat × Bool)) → Nat → Option (Nat × Bool)
  | [], _ => none
  | (k', v') :: rest, k => if k' = k then some v' else lookupAssoc rest k

/-- Map insertion with overwrite (unordered_map bracket assignment). -/
def assocSet (m : List (Nat × (Nat × Bool))) (k : Nat) (v : Nat × Bool) :
    List (Nat × (Nat × Bool)) :=
  match m with
  | [] => [(k, v)]
  | (k', v') :: rest =>
    if k' = k then (k, v) :: rest else (k', v') :: assocSet rest k v

/-- The registration loop of InitializePasses: for every pass of the array,
valid or not, register its present unlit-base and lit-base indices. -/
def buildLookupGo : Nat → List (Nat × (Nat × Bool)) → List PassData →
    List (Nat × (Nat × Bool))
  | _, m, [] => m
  | i, m, p :: ps =>
    let m1 := if p.unlitBaseIndex ≠ MAX_U
      then assocSet m p.unlitBaseIndex (i, false) else m
    let m2 := if p.litBaseIndex ≠ MAX_U
      then assocSet m1 p.litBaseIndex (i, true) else m1
    buildLookupGo (i + 1) m2 ps

/-- baseBatchesLookup_ built from a cleared map. -/
def buildLookup (ps : List PassData) : List (Nat × (Nat × Bool)) :=
  buildLookupGo 0 [] ps

end Collect

/-- The invalid pass description of the C2 scenario: an Unlit pass that also
declares lit-base and additional-light sub-passes. -/
def c2desc : Collect.ScenePassDesc := ⟨Collect.ScenePassType.Unlit, 1, 2, 3⟩

/-- A supported technique providing pass index 1 (pass object 10). -/
def c2tech : Collect.Technique := ⟨true, [(1, 10)]⟩

/-- A single-technique material using that technique. -/
def c2mat : Collect.Material := ⟨[⟨some c2tech, 0, 0⟩]⟩

/-- An in-range geometry drawable with one source batch over that material. -/
def c2drawable : Collect.Drawable :=
  ⟨0, true, false, 0, 0, 0, [⟨5, some c2mat⟩], some (0, 1), false, 0⟩

/-- The pass array produced by InitializePasses from the invalid description. -/
def c2passes : List Collect.PassData := Collect.initPassesGo [] [c2desc]

/-- The collector state of the C2 scenario. -/
def c2st : Collect.CollectState :=
  ⟨fun _ => 0, fun _ => (0, 0), [], [], [], c2passes⟩

/-- A supported technique providing pass index 1 (pass object 10) for the C1
scenario. -/
def c1tech : Collect.Technique := ⟨true, [(1, 10)]⟩

/-- A single-technique material for the C1 scenario. -/
def c1mat : Collect.Material := ⟨[⟨some c1tech, 0, 0⟩]⟩

/-- A valid Unlit pass over pass index 1. -/
def c1pass : Collect.PassData :=
  ⟨Collect.ScenePassType.Unlit, 1, MAX_U, MAX_U, [], []⟩

/-- A geometry drawable whose positive draw distance 1 is exceeded by its
camera distance 2. -/
def c1far : Collect.Drawable :=
  ⟨0, true, false, 1, 2, 0, [⟨5, some c1mat⟩], some (0, 1), false, 0⟩

/-- An in-range geometry drawable with one source batch. -/
def c1near : Collect.Drawable :=
  ⟨1, true, false, 0, 0, 0, [⟨6, some c1mat⟩], some (0, 1), false, 0⟩

/-- The initial collector state of the C1 scenario. -/
def c1st : Collect.CollectState :=
  ⟨fun _ => 0, fun _ => (0, 0), [], [], [], [c1pass]⟩

namespace Collect

theorem scanTechniques_eq_find? (materialQuality lodDistance : Int)
    (ts : List TechniqueEntry) :
    scanTechniques materialQuality lodDistance ts
      = (ts.find? (qualifies materialQuality lodDistance)).bind
          (fun e => e.technique) := by
  induction ts with
  | nil => rfl
  | cons e rest ih =>
    cases he : e.technique with
    | none =>
      simp only [scanTechniques, he, List.find?, qualifies]
      exact ih
    | some tech =>
      by_cases hs : tech.supported
      · by_cases hq : materialQuality < e.qualityLevel
        · have hqual : qualifies materialQuality lodDistance e = false := by
            simp [qualifies, he, hs, not_le.mpr hq]
          simp only [scanTechniques, he, hs, decide_eq_true_eq]
          rw [List.find?]
          simp only [hqual]
          simpa [hq] using ih
        · have hq' : e.qualityLevel ≤ materialQuality := le_of_not_lt hq
          by_cases hl : e.lodDistance ≤ lodDistance
          · have hqual : qualifies materialQuality lodDistance e = true := by
              simp [qualifies, he, hs, hq', hl]
            simp only [scanTechniques, he, hs]
            rw [List.find?]
            simp [hqual, hq, hl, he]
          · have hqual : qualifies materialQuality lodDistance e = false := by
              simp [qualifies, he, hs, hl]
            simp only [scanTechniques, he, hs]
            rw [List.find?]
            simp only [hqual]
            simpa [hq, hl] using ih
      · have hqual : qualifies materialQuality lodDistance e = false := by
          simp [qualifies, he, hs]
        simp only [scanTechniques, he, hs]
        rw [List.find?]
        simp only [hqual]
        simpa using ih

end Collect

namespace PS

theorem find_set_ne (c : Cache) (k k' : Key) (e : Entry) (h : k' ≠ k) :
    find (set c k e) k' = find c k' := by
  have hkk : ¬ k = k' := fun hh => h hh.symm
  induction c with
  | nil => simp [set, find, hkk]
  | cons p rest ih =>
    cases p with
    | mk pk pe =>
      by_cases hk : pk = k
      · subst hk
        simp [set, find, hkk]
      · simp only [set, find, if_neg hk]
        by_cases hk' : pk = k'
        · simp [hk']
        · simp [hk', ih]

end PS

/-- C8 (code bug evidence): running CollectSceneBaseBatches a second time on
the cache produced by the first run, with all live hashes unchanged, invokes
the pipeline-state factory again (the creation counter advances from 1 to 2)
and yields a different batch list (a fresh pipeline-state object), because
the entry hashes were never captured at creation: the second-call lookup
compares the live geometry hash 1 against the stored 0 and misses. -/
theorem c8_second_collect_invokes_factory :
    (PS.collectSceneBaseBatches c8env c8denv [] 0 c8ibs).2.2 = 1
    ∧ (PS.collectSceneBaseBatches c8env c8denv
        (PS.collectSceneBaseBatches c8env c8denv [] 0 c8ibs).2.1
        (PS.collectSceneBaseBatches c8env c8denv [] 0 c8ibs).2.2
        c8ibs).2.2 = 2
    ∧ (PS.collectSceneBaseBatches c8env c8denv
        (PS.collectSceneBaseBatches c8env c8denv [] 0 c8ibs).2.1
        (PS.collectSceneBaseBatches c8env c8denv [] 0 c8ibs).2.2
        c8ibs).1
      ≠ (PS.collectSceneBaseBatches c8env c8denv [] 0 c8ibs).1 := by
  refine ⟨rfl, rfl, ?_⟩
  decide

/-- C4 (code bug evidence): GetOrCreatePipelineState on an empty cache,
immediately followed by GetPipelineState with the unchanged key, misses
instead of returning the created state whenever a live hash is nonzero,
because the entry hash fields are never assigned: the stored entry still
carries zero hashes while the live geometry hash is 1, so the lookup flags
it invalidated and returns null. -/
theorem c4_lookup_after_create_misses :
    (PS.getPipelineState ⟨fun _ => 1, fun _ => 0, fun _ => 0⟩
        (PS.getOrCreatePipelineState ⟨fun _ => 1, fun _ => 0, fun _ => 0⟩
          [] ⟨0, 0, 0, 0⟩ 0).2.1 ⟨0, 0, 0, 0⟩).1 = none
    ∧ PS.find (PS.getOrCreatePipelineState ⟨fun _ => 1, fun _ => 0, fun _ => 0⟩
          [] ⟨0, 0, 0, 0⟩ 0).2.1 ⟨0, 0, 0, 0⟩
        = some ⟨0, 0, 0, some 0, false⟩ := by
  constructor
  · rfl
  · rfl

/-- C10: GetPipelineState on a key with no cache entry returns a miss and
leaves the cache completely unchanged; it never changes any binding other
than the looked-up key; and it mutates the cache at all only when the entry
is present, not yet invalidated and some captured hash mismatches the live
hash, in which case the only change is setting that entry invalidated flag
and the result is a miss. -/
theorem c10_lookup_purity (env : PS.HashEnv) (c : PS.Cache) (k : PS.Key) :
    (PS.find c k = none → PS.getPipelineState env c k = (none, c))
    ∧ (∀ k', k' ≠ k →
        PS.find (PS.getPipelineState env c k).2 k' = PS.find c k')
    ∧ ((PS.getPipelineState env c k).2 ≠ c →
        ∃ e, PS.find c k = some e ∧ e.invalidated = false
          ∧ (env.geometryHash k.geometry ≠ e.geometryHash
              ∨ env.materialHash k.material ≠ e.materialHash
              ∨ env.passHash k.pass ≠ e.passHash)
          ∧ (PS.getPipelineState env c k).1 = none
          ∧ (PS.getPipelineState env c k).2
              = PS.set c k { e with invalidated := true }) := by
  refine ⟨?_, ?_, ?_⟩
  · intro h
    simp [PS.getPipelineState, h]
  · intro k' hk'
    unfold PS.getPipelineState
    cases hf : PS.find c k with
    | none => rfl
    | some e =>
      by_cases hi : e.invalidated
      · simp [hi]
      · by_cases hm : env.geometryHash k.geometry ≠ e.geometryHash
            ∨ env.materialHash k.material ≠ e.materialHash
            ∨ env.passHash k.pass ≠ e.passHash
        · simp only [hi, hm, if_true, if_false, Bool.false_eq_true]
          simp [PS.find_set_ne c k k' _ hk']
        · simp [hi, hm]
  · intro hne
    unfold PS.getPipelineState at *
    cases hf : PS.find c k with
    | none => rw [hf] at hne; simp at hne
    | some e =>
      rw [hf] at hne
      by_cases hi : e.invalidated
      · simp [hi] at hne
      · by_cases hm : env.geometryHash k.geometry ≠ e.geometryHash
            ∨ env.materialHash k.material ≠ e.materialHash
            ∨ env.passHash k.pass ≠ e.passHash
        · refine ⟨e, rfl, by simpa using hi, hm, ?_, ?_⟩
          · simp [hi, hm]
          · simp [hi, hm]
        · simp [hi, hm] at hne

/-- C10 witness: purity applied at a concrete empty cache and key. -/
theorem c10_lookup_purity_witness :
    PS.find ([] : PS.Cache) ⟨1, 2, 3, 4⟩ = none
    ∧ PS.getPipelineState ⟨fun _ => 0, fun _ => 0, fun _ => 0⟩
        ([] : PS.Cache) ⟨1, 2, 3, 4⟩ = (none, []) :=
  ⟨rfl, (c10_lookup_purity ⟨fun _ => 0, fun _ => 0, fun _ => 0⟩
          [] ⟨1, 2, 3, 4⟩).1 rfl⟩

namespace Lights

theorem le_dirRunMax (lights : List VisibleLight) (s : Int) :
    s ≤ dirRunMax s lights := by
  induction lights generalizing s with
  | nil => simp [dirRunMax]
  | cons l rest ih =>
    by_cases h : l.lightType = LightType.directional ∧ l.intensityDivisor > s
    · simp only [dirRunMax, if_pos h]
      exact le_trans (le_of_lt h.2) (ih l.intensityDivisor)
    · simp only [dirRunMax, if_neg h]
      exact ih s

theorem findMainLightAux_characterization (lights : List VisibleLight)
    (s : Int) (b : Option VisibleLight) :
    findMainLightAux s b lights
      = if s < dirRunMax s lights
        then (lights.filter (tiedAt (dirRunMax s lights))).head?
        else b := by
  induction lights generalizing s b with
  | nil => simp [findMainLightAux, dirRunMax]
  | cons l rest ih =>
    by_cases hd : l.lightType = LightType.directional
    · by_cases hs : l.intensityDivisor > s
      · have hm : dirRunMax s (l :: rest) = dirRunMax l.intensityDivisor rest := by
          simp [dirRunMax, hd, hs]
        have hlhs : findMainLightAux s b (l :: rest)
            = findMainLightAux l.intensityDivisor (some l) rest := by
          simp [findMainLightAux, hd, hs]
        have hle : l.intensityDivisor ≤ dirRunMax l.intensityDivisor rest :=
          le_dirRunMax rest l.intensityDivisor
        have hsm : s < dirRunMax s (l :: rest) := by
          rw [hm]; exact lt_of_lt_of_le hs hle
        rw [hlhs, ih, if_pos hsm, hm]
        by_cases heq : l.intensityDivisor = dirRunMax l.intensityDivisor rest
        · have hnot : ¬ l.intensityDivisor < dirRunMax l.intensityDivisor rest :=
            by rw [← heq]; exact lt_irrefl _
          have htied : tiedAt (dirRunMax l.intensityDivisor rest) l = true := by
            simp only [tiedAt, decide_eq_true_eq]
            exact ⟨hd, heq⟩
          rw [if_neg hnot, List.filter_cons, htied]
          rfl
        · have hlt : l.intensityDivisor < dirRunMax l.intensityDivisor rest :=
            lt_of_le_of_ne hle heq
          have htied : tiedAt (dirRunMax l.intensityDivisor rest) l = false := by
            simp [tiedAt, heq]
          rw [if_pos hlt, List.filter_cons, htied]
          simp only [Bool.false_eq_true, if_false]
      · have hm : dirRunMax s (l :: rest) = dirRunMax s rest := by
          simp [dirRunMax, hd, hs]
        have hlhs : findMainLightAux s b (l :: rest)
            = findMainLightAux s b rest := by
          simp [findMainLightAux, hd, hs]
        rw [hlhs, ih, hm]
        by_cases hsm : s < dirRunMax s rest
        · have hle' : l.intensityDivisor ≤ s := le_of_not_lt hs
          have htied : tiedAt (dirRunMax s rest) l = false := by
            have : l.intensityDivisor ≠ dirRunMax s rest :=
              ne_of_lt (lt_of_le_of_lt hle' hsm)
            simp [tiedAt, this]
          rw [if_pos hsm, if_pos hsm, List.filter_cons, htied]
          simp only [Bool.false_eq_true, if_false]
        · rw [if_neg hsm, if_neg hsm]
    · have hm : dirRunMax s (l :: rest) = dirRunMax s rest := by
        simp [dirRunMax, hd]
      have hlhs : findMainLightAux s b (l :: rest)
          = findMainLightAux s b rest := by
        simp [findMainLightAux, hd]
      rw [hlhs, ih, hm]
      by_cases hsm : s < dirRunMax s rest
      · have htied : tiedAt (dirRunMax s rest) l = false := by
          simp [tiedAt, hd]
        rw [if_pos hsm, if_pos hsm, List.filter_cons, htied]
        simp only [Bool.false_eq_true, if_false]
      · rw [if_neg hsm, if_neg hsm]

theorem findMainLight_characterization (lights : List VisibleLight) :
    findMainLight lights
      = if 0 < dirScoreMax lights
        then (lights.filter (tiedAt (dirScoreMax lights))).head?
        else none :=
  findMainLightAux_characterization lights 0 none

end Lights

/-- C5 counterexample: a single visible directional light whose importance
score is 0 is the directional light with the strictly greatest score among
the candidates, yet main-light selection returns no light, refuting the
claim as stated. -/
theorem c5_counterexample :
    Lights.findMainLight [⟨0, LightType.directional, 0⟩] = none
    ∧ (⟨0, LightType.directional, 0⟩ : Lights.VisibleLight).lightType
        = LightType.directional := by
  constructor
  · rfl
  · rfl

/-- C5 amended: main-light selection returns the first directional light in
visible-light order whose score equals the maximum directional score,
provided that maximum is positive; when no directional light has a positive
score, no light is selected; a selected light is always directional with a
positive score; and the choice depends only on the maximal-score tied
subsequence, hence is stable under reordering of the non-tied remainder. -/
theorem c5_amended (lights : List Lights.VisibleLight) :
    (Lights.findMainLight lights
      = if 0 < Lights.dirScoreMax lights
        then (lights.filter (Lights.tiedAt (Lights.dirScoreMax lights))).head?
        else none)
    ∧ (∀ l, Lights.findMainLight lights = some l →
        l.lightType = LightType.directional ∧ 0 < l.intensityDivisor)
    ∧ (∀ lights' : List Lights.VisibleLight,
        Lights.dirScoreMax lights' = Lights.dirScoreMax lights →
        lights'.filter (Lights.tiedAt (Lights.dirScoreMax lights))
          = lights.filter (Lights.tiedAt (Lights.dirScoreMax lights)) →
        Lights.findMainLight lights' = Lights.findMainLight lights) := by
  refine ⟨Lights.findMainLight_characterization lights, ?_, ?_⟩
  · intro l hl
    rw [Lights.findMainLight_characterization lights] at hl
    by_cases hpos : 0 < Lights.dirScoreMax lights
    · rw [if_pos hpos] at hl
      have hmem : l ∈ lights.filter
          (Lights.tiedAt (Lights.dirScoreMax lights)) :=
        List.mem_of_mem_head? (by rw [hl]; exact rfl)
      have htied := List.of_mem_filter hmem
      have := of_decide_eq_true htied
      exact ⟨this.1, this.2 ▸ hpos⟩
    · rw [if_neg hpos] at hl
      exact absurd hl (by simp)
  · intro lights' hmax hfilter
    rw [Lights.findMainLight_characterization lights,
        Lights.findMainLight_characterization lights', hmax, hfilter]

/-- C5 amended witness: the characterization applied to two tied directional
lights preceded by a spot light: the first directional light is kept. -/
theorem c5_amended_witness :
    Lights.findMainLight
        [⟨9, LightType.spot, 7⟩, ⟨0, LightType.directional, 2⟩,
         ⟨1, LightType.directional, 2⟩]
      = some ⟨0, LightType.directional, 2⟩ :=
  ((c5_amended [⟨9, LightType.spot, 7⟩, ⟨0, LightType.directional, 2⟩,
      ⟨1, LightType.directional, 2⟩]).1).trans (by decide)

/-- C9: when every visible directional light has an importance score at or
below zero, the main-light scan selects no light, because the running best
score starts at zero and only a strictly greater score is ever taken. -/
theorem c9_nonpositive_scores_no_main_light
    (lights : List Lights.VisibleLight)
    (h : ∀ l ∈ lights, l.lightType = LightType.directional →
      l.intensityDivisor ≤ 0) :
    Lights.findMainLight lights = none := by
  have haux : ∀ (ls : List Lights.VisibleLight) (s : Int)
      (b : Option Lights.VisibleLight),
      (∀ l ∈ ls, l.lightType = LightType.directional →
        l.intensityDivisor ≤ s) →
      Lights.findMainLightAux s b ls = b := by
    intro ls
    induction ls with
    | nil => intro s b _; rfl
    | cons l rest ih =>
      intro s b hls
      by_cases hd : l.lightType = LightType.directional
      · have hle : l.intensityDivisor ≤ s := hls l (by simp) hd
        have hnot : ¬ l.intensityDivisor > s := not_lt.mpr hle
        have h1 : ¬ (l.lightType ≠ LightType.directional) := by simp [hd]
        show (if l.lightType ≠ LightType.directional
            then Lights.findMainLightAux s b rest
            else if l.intensityDivisor > s
              then Lights.findMainLightAux l.intensityDivisor (some l) rest
              else Lights.findMainLightAux s b rest) = b
        rw [if_neg h1, if_neg hnot]
        exact ih s b (fun x hx => hls x (by simp [hx]))
      · show (if l.lightType ≠ LightType.directional
            then Lights.findMainLightAux s b rest
            else if l.intensityDivisor > s
              then Lights.findMainLightAux l.intensityDivisor (some l) rest
              else Lights.findMainLightAux s b rest) = b
        rw [if_pos hd]
        exact ih s b (fun x hx => hls x (by simp [hx]))
  exact haux lights 0 none h

/-- C9 witness: a directional light with score 0 and a spot light with a
positive score select no main light. -/
theorem c9_witness :
    (∀ l ∈ ([⟨0, LightType.directional, 0⟩, ⟨1, LightType.spot, 5⟩]
        : List Lights.VisibleLight),
      l.lightType = LightType.directional → l.intensityDivisor ≤ 0)
    ∧ Lights.findMainLight
        [⟨0, LightType.directional, 0⟩, ⟨1, LightType.spot, 5⟩] = none :=
  ⟨by decide,
   c9_nonpositive_scores_no_main_light
     [⟨0, LightType.directional, 0⟩, ⟨1, LightType.spot, 5⟩] (by decide)⟩

namespace LitGeom

theorem testDrawables_eq (traits : Nat → Nat) (lightMask : Nat)
    (contains : LitDrawable → Bool) (result : List LitDrawable)
    (cands : List (LitDrawable × Bool)) :
    testDrawables traits lightMask contains result cands
      = result ++ (cands.filter (accepts traits lightMask contains)).map
          Prod.fst := by
  induction cands generalizing result with
  | nil => simp [testDrawables]
  | cons p rest ih =>
    cases p with
    | mk d inside =>
      by_cases h1 : traits d.drawableIndex &&& DrawableVisibleGeometry ≠ 0
      · by_cases h2 : d.lightMask &&& lightMask ≠ 0
        · by_cases h3 : (inside || contains d) = true
          · have ha : accepts traits lightMask contains (d, inside) = true := by
              simp [accepts, h1, h2, h3]
            simp only [testDrawables, if_pos h1, if_pos h2, if_pos h3,
              List.filter_cons, ha, List.map_cons]
            rw [ih]
            simp
          · have h3' : (inside || contains d) = false :=
              eq_false_of_ne_true h3
            have ha : accepts traits lightMask contains (d, inside) = false := by
              simp [accepts, h3']
            simp only [testDrawables, if_pos h1, if_pos h2, h3,
              List.filter_cons, ha, if_false]
            exact ih result
        · have ha : accepts traits lightMask contains (d, inside) = false := by
            simp [accepts, h2]
          simp only [testDrawables, if_pos h1, if_neg h2,
            List.filter_cons, ha]
          rw [ih]
          simp
      · have ha : accepts traits lightMask contains (d, inside) = false := by
          simp [accepts, h1]
        simp only [testDrawables, if_neg h1, List.filter_cons, ha]
        rw [ih]
        simp

theorem foldl_filter_append (mask : Nat) (geoms : List LitDrawable)
    (init : List LitDrawable) :
    geoms.foldl (fun res d => if d.lightMask &&& mask ≠ 0
        then res ++ [d] else res) init
      = init ++ geoms.filter (fun d => decide (d.lightMask &&& mask ≠ 0)) := by
  induction geoms generalizing init with
  | nil => simp
  | cons d rest ih =>
    simp only [List.foldl_cons, List.filter_cons]
    by_cases h : d.lightMask &&& mask ≠ 0
    · rw [if_pos h, ih]
      simp [h]
    · rw [if_neg h, ih]
      simp [h]

end LitGeom

/-- C6: for a visible directional light, the lit-geometry list is exactly
the visible-geometry list filtered by intersection of the drawable light
mask with the raw light mask, independent of the octree contents and of the
containment oracles (no spatial query); for spot and point lights, a
drawable is in the lit-geometry list exactly when the octree query yields it
with some inside flag, it carries the visible-geometry trait, its light mask
intersects the light effective mask, and it is inside the node or passes
the frustum (spot) or sphere (point) containment test. -/
theorem c6_lit_geometries (scene : LitGeom.LitScene)
    (lightMask lightMaskEffective : Nat) :
    (LitGeom.collectLitGeometries scene
        ⟨LightType.directional, lightMask, lightMaskEffective⟩
      = scene.visibleGeometries.filter
          (fun d => decide (d.lightMask &&& lightMask ≠ 0)))
    ∧ (∀ d, d ∈ LitGeom.collectLitGeometries scene
          ⟨LightType.spot, lightMask, lightMaskEffective⟩
        ↔ ∃ inside, (d, inside) ∈ scene.octreeCandidates
            ∧ scene.traits d.drawableIndex &&& DrawableVisibleGeometry ≠ 0
            ∧ d.lightMask &&& lightMaskEffective ≠ 0
            ∧ (inside = true ∨ scene.frustumInside d = true))
    ∧ (∀ d, d ∈ LitGeom.collectLitGeometries scene
          ⟨LightType.point, lightMask, lightMaskEffective⟩
        ↔ ∃ inside, (d, inside) ∈ scene.octreeCandidates
            ∧ scene.traits d.drawableIndex &&& DrawableVisibleGeometry ≠ 0
            ∧ d.lightMask &&& lightMaskEffective ≠ 0
            ∧ (inside = true ∨ scene.sphereInside d = true)) := by
  refine ⟨?_, ?_, ?_⟩
  · show scene.visibleGeometries.foldl _ [] = _
    rw [LitGeom.foldl_filter_append]
    simp
  · intro d
    show d ∈ LitGeom.testDrawables scene.traits lightMaskEffective
        scene.frustumInside [] scene.octreeCandidates ↔ _
    rw [LitGeom.testDrawables_eq]
    simp only [List.nil_append, List.mem_map, List.mem_filter]
    constructor
    · rintro ⟨⟨d', inside⟩, ⟨hmem, hacc⟩, hfst⟩
      cases hfst
      simp only [LitGeom.accepts, Bool.and_eq_true, decide_eq_true_eq,
        Bool.or_eq_true] at hacc
      exact ⟨inside, hmem, hacc.1.1, hacc.1.2, hacc.2⟩
    · rintro ⟨inside, hmem, h1, h2, h3⟩
      refine ⟨(d, inside), ⟨hmem, ?_⟩, rfl⟩
      simp only [LitGeom.accepts, Bool.and_eq_true, decide_eq_true_eq,
        Bool.or_eq_true]
      exact ⟨⟨h1, h2⟩, h3⟩
  · intro d
    show d ∈ LitGeom.testDrawables scene.traits lightMaskEffective
        scene.sphereInside [] scene.octreeCandidates ↔ _
    rw [LitGeom.testDrawables_eq]
    simp only [List.nil_append, List.mem_map, List.mem_filter]
    constructor
    · rintro ⟨⟨d', inside⟩, ⟨hmem, hacc⟩, hfst⟩
      cases hfst
      simp only [LitGeom.accepts, Bool.and_eq_true, decide_eq_true_eq,
        Bool.or_eq_true] at hacc
      exact ⟨inside, hmem, hacc.1.1, hacc.1.2, hacc.2⟩
    · rintro ⟨inside, hmem, h1, h2, h3⟩
      refine ⟨(d, inside), ⟨hmem, ?_⟩, rfl⟩
      simp only [LitGeom.accepts, Bool.and_eq_true, decide_eq_true_eq,
        Bool.or_eq_true]
      exact ⟨⟨h1, h2⟩, h3⟩

/-- C6 witness: a concrete scene with one visible geometry matching the
directional mask and one octree candidate accepted by the point query. -/
theorem c6_lit_geometries_witness :
    LitGeom.collectLitGeometries
        ⟨fun _ => DrawableVisibleGeometry, [⟨0, 1⟩, ⟨1, 2⟩],
          [(⟨0, 1⟩, false)], fun _ => true, fun _ => false⟩
        ⟨LightType.directional, 1, 1⟩ = [⟨0, 1⟩]
    ∧ (⟨0, 1⟩ : LitGeom.LitDrawable) ∈ LitGeom.collectLitGeometries
        ⟨fun _ => DrawableVisibleGeometry, [⟨0, 1⟩, ⟨1, 2⟩],
          [(⟨0, 1⟩, false)], fun _ => true, fun _ => false⟩
        ⟨LightType.point, 1, 1⟩ :=
  ⟨((c6_lit_geometries
      ⟨fun _ => DrawableVisibleGeometry, [⟨0, 1⟩, ⟨1, 2⟩],
        [(⟨0, 1⟩, false)], fun _ => true, fun _ => false⟩ 1 1).1).trans
      (by decide),
   ((c6_lit_geometries
      ⟨fun _ => DrawableVisibleGeometry, [⟨0, 1⟩, ⟨1, 2⟩],
        [(⟨0, 1⟩, false)], fun _ => true, fun _ => false⟩ 1 1).2.2
      ⟨0, 1⟩).mpr ⟨false, by decide, by decide, by decide, Or.inr rfl⟩⟩

namespace Collect

theorem isValid_eq_spec (p : PassData) :
    p.isValid = specPassValid p.passType (p.unlitBaseIndex != MAX_U)
      (p.litBaseIndex != MAX_U) (p.additionalIndex != MAX_U) := by
  rcases p with ⟨ty, u, l, a, ub, lb⟩
  cases ty <;>
    cases hu : (u != MAX_U) <;>
    cases hl : (l != MAX_U) <;>
    cases ha : (a != MAX_U) <;>
    simp [PassData.isValid, checkSubPasses, specPassValid, hu, hl, ha]

theorem lookupAssoc_assocSet_self (m : List (Nat × (Nat × Bool)))
    (k : Nat) (v : Nat × Bool) :
    lookupAssoc (assocSet m k v) k = some v := by
  induction m with
  | nil => simp [lookupAssoc, assocSet]
  | cons p rest ih =>
    cases p with
    | mk k' v' =>
      by_cases hk : k' = k
      · simp [assocSet, hk, lookupAssoc]
      · simp only [assocSet, if_neg hk, lookupAssoc]
        exact ih

theorem lookupAssoc_assocSet_ne (m : List (Nat × (Nat × Bool)))
    (k j : Nat) (v : Nat × Bool) (hjk : j ≠ k) :
    lookupAssoc (assocSet m k v) j = lookupAssoc m j := by
  have hkj : ¬ k = j := fun hh => hjk hh.symm
  induction m with
  | nil => simp [lookupAssoc, assocSet, hkj]
  | cons p rest ih =>
    cases p with
    | mk k' v' =>
      by_cases hk : k' = k
      · subst hk
        simp [assocSet, lookupAssoc, hkj]
      · simp only [assocSet, if_neg hk, lookupAssoc]
        by_cases hk' : k' = j
        · simp [hk']
        · simp [hk', ih]

theorem lookupAssoc_assocSet_isSome (m : List (Nat × (Nat × Bool)))
    (k j : Nat) (v : Nat × Bool)
    (h : (lookupAssoc m j).isSome = true) :
    (lookupAssoc (assocSet m k v) j).isSome = true := by
  by_cases hjk : j = k
  · subst hjk
    rw [lookupAssoc_assocSet_self]
    rfl
  · rw [lookupAssoc_assocSet_ne m k j v hjk]
    exact h

theorem lookupAssoc_setIf_isSome (c : Prop) [Decidable c]
    (m : List (Nat × (Nat × Bool))) (k j : Nat) (v : Nat × Bool)
    (h : (lookupAssoc m j).isSome = true) :
    (lookupAssoc (if c then assocSet m k v else m) j).isSome = true := by
  by_cases hc : c
  · rw [if_pos hc]
    exact lookupAssoc_assocSet_isSome m k j v h
  · rw [if_neg hc]
    exact h

theorem buildLookupGo_isSome (j : Nat) (ps : List PassData) :
    ∀ (i : Nat) (m : List (Nat × (Nat × Bool))),
      (lookupAssoc m j).isSome = true →
      (lookupAssoc (buildLookupGo i m ps) j).isSome = true := by
  induction ps with
  | nil => intro i m h; exact h
  | cons p rest ih =>
    intro i m h
    simp only [buildLookupGo]
    exact ih (i + 1) _
      (lookupAssoc_setIf_isSome _ _ _ _ _
        (lookupAssoc_setIf_isSome _ _ _ _ _ h))

theorem buildLookupGo_mem_unlit (ps : List PassData) :
    ∀ (i : Nat) (m : List (Nat × (Nat × Bool))) (p : PassData),
      p ∈ ps → p.unlitBaseIndex ≠ MAX_U →
      (lookupAssoc (buildLookupGo i m ps) p.unlitBaseIndex).isSome = true := by
  induction ps with
  | nil => intro i m p hmem _; cases hmem
  | cons q rest ih =>
    intro i m p hmem hu
    rcases List.mem_cons.mp hmem with hq | hrest
    · subst hq
      simp only [buildLookupGo]
      rw [if_pos hu]
      apply buildLookupGo_isSome
      apply lookupAssoc_setIf_isSome
      rw [lookupAssoc_assocSet_self]
      rfl
    · simp only [buildLookupGo]
      exact ih (i + 1) _ p hrest hu

theorem buildLookupGo_mem_lit (ps : List PassData) :
    ∀ (i : Nat) (m : List (Nat × (Nat × Bool))) (p : PassData),
      p ∈ ps → p.litBaseIndex ≠ MAX_U →
      (lookupAssoc (buildLookupGo i m ps) p.litBaseIndex).isSome = true := by
  induction ps with
  | nil => intro i m p hmem _; cases hmem
  | cons q rest ih =>
    intro i m p hmem hl
    rcases List.mem_cons.mp hmem with hq | hrest
    · subst hq
      simp only [buildLookupGo]
      rw [if_pos hl]
      apply buildLookupGo_isSome
      rw [lookupAssoc_assocSet_self]
      rfl
    · simp only [buildLookupGo]
      exact ih (i + 1) _ p hrest hl

end Collect

/-- C7: PassData::IsValid agrees with the section 4.2 validity rule on every
configuration, and it is a pure function of the pass type and sub-pass
presence triple: two configurations agreeing on those classify identically
(hence repeated evaluation classifies identically). -/
theorem c7_pass_validity (p : Collect.PassData) :
    (p.isValid = Collect.specPassValid p.passType
        (p.unlitBaseIndex != MAX_U) (p.litBaseIndex != MAX_U)
        (p.additionalIndex != MAX_U))
    ∧ (∀ q : Collect.PassData, p.passType = q.passType →
        (p.unlitBaseIndex != MAX_U) = (q.unlitBaseIndex != MAX_U) →
        (p.litBaseIndex != MAX_U) = (q.litBaseIndex != MAX_U) →
        (p.additionalIndex != MAX_U) = (q.additionalIndex != MAX_U) →
        p.isValid = q.isValid) := by
  refine ⟨Collect.isValid_eq_spec p, ?_⟩
  intro q hty h1 h2 h3
  rw [Collect.isValid_eq_spec p, Collect.isValid_eq_spec q, hty, h1, h2, h3]

/-- C7 witness: the characterization applied to a valid ForwardLitBase
configuration and a presence-equal copy with different batch lists. -/
theorem c7_pass_validity_witness :
    (Collect.PassData.isValid ⟨Collect.ScenePassType.ForwardLitBase,
        MAX_U, 2, 3, [], []⟩
      = Collect.specPassValid Collect.ScenePassType.ForwardLitBase
          (MAX_U != MAX_U) ((2 : Nat) != MAX_U) ((3 : Nat) != MAX_U))
    ∧ Collect.PassData.isValid ⟨Collect.ScenePassType.ForwardLitBase,
        MAX_U, 2, 3, [], []⟩
      = Collect.PassData.isValid ⟨Collect.ScenePassType.ForwardLitBase,
          MAX_U, 7, 8, [⟨none, 0, none, none⟩], []⟩ :=
  ⟨(c7_pass_validity ⟨Collect.ScenePassType.ForwardLitBase,
      MAX_U, 2, 3, [], []⟩).1,
   (c7_pass_validity ⟨Collect.ScenePassType.ForwardLitBase,
      MAX_U, 2, 3, [], []⟩).2
     ⟨Collect.ScenePassType.ForwardLitBase, MAX_U, 7, 8,
       [⟨none, 0, none, none⟩], []⟩ rfl (by decide) (by decide) (by decide)⟩

/-- C2 counterexample: the Unlit pass with all three sub-passes present fails
the validity rule, yet InitializePasses still registers its base-pass index 1
for batch lookup, and source-batch collection still inserts an intermediate
batch into its unlit batch list — the pass is not excluded from batch
collection. -/
theorem c2_counterexample :
    Collect.PassData.isValid
        ⟨Collect.ScenePassType.Unlit, 1, 2, 3, [], []⟩ = false
    ∧ Collect.lookupAssoc (Collect.buildLookup c2passes) 1 = some (0, false)
    ∧ (Collect.updateAndCollectForThread 0 c2mat c2st [c2drawable]).passes.map
        Collect.PassData.unlitBatches = [[⟨some 0, 0, some 10, none⟩]] := by
  refine ⟨rfl, rfl, ?_⟩
  decide

/-- C2 amended: InitializePasses does not exclude an invalid pass — it only
raises a debug assertion and skips clearing that pass batch lists. The
base-pass registration loop registers the present unlit-base and lit-base
indices of every pass of the array, valid or not; and on an invalid pass the
setup loop still copies the type and the three indices while keeping the
previous batch lists uncleared. -/
theorem c2_amended :
    (∀ (ps : List Collect.PassData) (p : Collect.PassData), p ∈ ps →
        p.unlitBaseIndex ≠ MAX_U →
        (Collect.lookupAssoc (Collect.buildLookup ps)
          p.unlitBaseIndex).isSome = true)
    ∧ (∀ (ps : List Collect.PassData) (p : Collect.PassData), p ∈ ps →
        p.litBaseIndex ≠ MAX_U →
        (Collect.lookupAssoc (Collect.buildLookup ps)
          p.litBaseIndex).isSome = true)
    ∧ (∀ (prev : Collect.PassData) (d : Collect.ScenePassDesc),
        (Collect.initOne prev d).isValid = false →
        (Collect.initOne prev d).passType = d.passType
        ∧ (Collect.initOne prev d).unlitBaseIndex = d.unlitBaseIndex
        ∧ (Collect.initOne prev d).litBaseIndex = d.litBaseIndex
        ∧ (Collect.initOne prev d).additionalIndex = d.additionalIndex
        ∧ (Collect.initOne prev d).unlitBatches = prev.unlitBatches
        ∧ (Collect.initOne prev d).litBatches = prev.litBatches) := by
  refine ⟨?_, ?_, ?_⟩
  · intro ps p hmem hu
    exact Collect.buildLookupGo_mem_unlit ps 0 [] p hmem hu
  · intro ps p hmem hl
    exact Collect.buildLookupGo_mem_lit ps 0 [] p hmem hl
  · intro prev d hval
    have hsame : ∀ (ty : Collect.ScenePassType) (u l a : Nat)
        (ub lb ub' lb' : List Collect.IntermediateSceneBatch),
        (⟨ty, u, l, a, ub, lb⟩ : Collect.PassData).isValid
          = (⟨ty, u, l, a, ub', lb'⟩ : Collect.PassData).isValid := by
      intro ty u l a ub lb ub' lb'
      cases ty <;> rfl
    simp only [Collect.initOne] at hval ⊢
    by_cases hv : ({ prev with
        passType := d.passType,
        unlitBaseIndex := d.unlitBaseIndex,
        litBaseIndex := d.litBaseIndex,
        additionalIndex := d.additionalIndex } : Collect.PassData).isValid
    · rw [if_pos hv] at hval
      rw [hsame d.passType d.unlitBaseIndex d.litBaseIndex d.additionalIndex
        [] [] prev.unlitBatches prev.litBatches] at hval
      rw [hv] at hval
      exact absurd hval (by decide)
    · rw [if_neg hv]
      exact ⟨rfl, rfl, rfl, rfl, rfl, rfl⟩

/-- C2 amended witness: registration applied to the concrete invalid pass of
the counterexample scenario. -/
theorem c2_amended_witness :
    ((⟨Collect.ScenePassType.Unlit, 1, 2, 3, [], []⟩ : Collect.PassData)
        ∈ c2passes)
    ∧ (Collect.lookupAssoc (Collect.buildLookup c2passes)
        (⟨Collect.ScenePassType.Unlit, 1, 2, 3, [], []⟩
          : Collect.PassData).unlitBaseIndex).isSome = true :=
  ⟨by decide,
   c2_amended.1 c2passes ⟨Collect.ScenePassType.Unlit, 1, 2, 3, [], []⟩
     (by decide) (by decide)⟩

/-- C1 (code bug evidence): on the thread range [far, near], the too-far
drawable is marked updated and produces zero batches across all passes (as
the claim states), but the return statement in the source abandons the rest
of the range: the second, in-range drawable is neither marked updated nor
classified and produces no batch — whereas processing it alone marks it
updated and visible and produces its batch. This contradicts the claim (and
the Skip-if-too-far comment in the source) that only the too-far drawable is
skipped. -/
theorem c1_far_drawable_halts_thread :
    ((Collect.updateAndCollectForThread 0 c1mat c1st [c1far, c1near]).traits 0
      = DrawableUpdated)
    ∧ ((Collect.updateAndCollectForThread 0 c1mat c1st [c1far, c1near]).traits 1
      = 0)
    ∧ ((Collect.updateAndCollectForThread 0 c1mat c1st
        [c1far, c1near]).visibleGeometries = [])
    ∧ ((Collect.updateAndCollectForThread 0 c1mat c1st
        [c1far, c1near]).passes.map Collect.PassData.unlitBatches = [[]])
    ∧ ((Collect.updateAndCollectForThread 0 c1mat c1st
        [c1far, c1near]).passes.map Collect.PassData.litBatches = [[]])
    ∧ ((Collect.updateAndCollectForThread 0 c1mat c1st [c1near]).traits 1
      = (DrawableUpdated ||| DrawableVisibleGeometry))
    ∧ ((Collect.updateAndCollectForThread 0 c1mat c1st
        [c1near]).visibleGeometries = [c1near])
    ∧ ((Collect.updateAndCollectForThread 0 c1mat c1st
        [c1near]).passes.map Collect.PassData.unlitBatches
      = [[⟨some 1, 0, some 10, none⟩]]) := by
  refine ⟨rfl, rfl, ?_, ?_, ?_, rfl, ?_, ?_⟩ <;> decide

/-- C3 counterexample: a material with two technique entries whose technique
pointers are both null makes FindTechnique return none although the technique
list is not empty, refuting that the result is none only when the technique
list is empty. -/
theorem c3_counterexample :
    Collect.findTechnique 0 0
        [⟨none, 0, 0⟩, ⟨none, 0, 0⟩] = none
      ∧ ([⟨none, 0, 0⟩, ⟨none, 0, 0⟩] : List Collect.TechniqueEntry) ≠ [] := by
  constructor
  · rfl
  · decide

/-- C3 amended: FindTechnique returns the sole entry technique pointer when
there is exactly one entry (possibly none); otherwise the technique of the
first entry in declared order that is present, supported, within the material
quality and whose LOD threshold is at or below the LOD distance; if no entry
qualifies, the last entry technique pointer (possibly none), and none exactly
when the list is empty or the selected entry carries no technique. The result
is by construction a function of (material, quality level, LOD distance). -/
theorem c3_amended (materialQuality lodDistance : Int) :
    (∀ e : Collect.TechniqueEntry,
        Collect.findTechnique materialQuality lodDistance [e] = e.technique)
    ∧ (∀ ts : List Collect.TechniqueEntry, ts.length ≠ 1 →
        Collect.findTechnique materialQuality lodDistance ts
          = match ts.find? (Collect.qualifies materialQuality lodDistance) with
            | some e => e.technique
            | none => ts.getLast?.bind (fun e => e.technique)) := by
  constructor
  · intro e
    rfl
  · intro ts hlen
    have hscan := Collect.scanTechniques_eq_find? materialQuality lodDistance ts
    match ts, hlen with
    | [], _ => rfl
    | a :: b :: rest, _ =>
      show (match Collect.scanTechniques materialQuality lodDistance
              (a :: b :: rest) with
            | some t => some t
            | none => (a :: b :: rest).getLast?.bind (fun e => e.technique)) = _
      rw [hscan]
      cases hfind : (a :: b :: rest).find?
          (Collect.qualifies materialQuality lodDistance) with
      | none => simp
      | some e =>
        have : Collect.qualifies materialQuality lodDistance e = true :=
          List.find?_some hfind
        cases he : e.technique with
        | none => simp [Collect.qualifies, he] at this
        | some t => simp [he]

/-- C3 amended witness: the characterization applied to a concrete material
with two entries where the first is too low-quality and the second qualifies. -/
theorem c3_amended_witness :
    ([⟨some ⟨true, []⟩, 5, 0⟩, ⟨some ⟨true, [(1, 2)]⟩, 0, 0⟩]
        : List Collect.TechniqueEntry).length ≠ 1
    ∧ Collect.findTechnique 0 0
        [⟨some ⟨true, []⟩, 5, 0⟩, ⟨some ⟨true, [(1, 2)]⟩, 0, 0⟩]
        = some ⟨true, [(1, 2)]⟩ :=
  ⟨by decide,
   ((c3_amended 0 0).2
      [⟨some ⟨true, []⟩, 5, 0⟩, ⟨some ⟨true, [(1, 2)]⟩, 0, 0⟩]
      (by decide)).trans (by decide)⟩
